import Mathlib

/-!
Verification of the natural-language-to-SQL pipeline of the EnlitenAI
chatbot repository.  The Python sources (`utils/db.py`, `utils/llm.py`,
`app.py`) are shallowly embedded: Python strings are modelled as
`List Char`, the Python string methods used by the source
(`lower`, `strip`, `startswith`, the `in` substring test and `replace`)
are given as executable Lean functions with Python semantics, and each
Python function of the core pipeline becomes a Lean definition.
External collaborators (the pandas/sqlite engine and the generative-text
backends) are passed in as explicit oracles, as the spec treats them as
swappable capabilities.
-/

/-- Python `str.isspace` on the ASCII whitespace characters that
`str.strip()` removes (space, tab, newline, carriage return, vertical
tab, form feed). -/
def isPySpace (c : Char) : Bool :=
  c == ' ' || c == '\t' || c == '\n' || c == '\r' ||
  c == Char.ofNat 11 || c == Char.ofNat 12

/-- Python `str.lower`, characterwise (the source only feeds ASCII SQL
text through it). -/
def pyLower (l : List Char) : List Char := l.map Char.toLower

/-- Leading-whitespace removal, the left half of Python `str.strip()`. -/
def stripLeft (l : List Char) : List Char := l.dropWhile isPySpace

/-- Trailing-whitespace removal, the right half of Python `str.strip()`. -/
def stripRight (l : List Char) : List Char :=
  (l.reverse.dropWhile isPySpace).reverse

/-- Python `str.strip()` with no argument: drop whitespace from both
ends. -/
def pyStrip (l : List Char) : List Char := stripRight (stripLeft l)

/-- Python `str.strip()` packaged on `String`. -/
def pyStripStr (s : String) : String := String.mk (pyStrip s.toList)

/-- The Python substring test `pat in s`. -/
def pyContains (pat : List Char) : List Char → Bool
  | [] => pat.isEmpty
  | c :: rest => pat.isPrefixOf (c :: rest) || pyContains pat rest

/-- Python `str.replace(pat, rep)` for a non-empty pattern: scan left to
right, replacing every non-overlapping occurrence.  The `fuel` argument
makes the recursion structural; callers pass the length of the scanned
list, which the scan never exceeds. -/
def pyReplaceAux (pat rep : List Char) : Nat → List Char → List Char
  | _, [] => []
  | 0, l => l
  | fuel + 1, c :: rest =>
    if pat ≠ [] ∧ pat.isPrefixOf (c :: rest) = true then
      rep ++ pyReplaceAux pat rep fuel ((c :: rest).drop pat.length)
    else
      c :: pyReplaceAux pat rep fuel rest

/-- Python `str.replace(pat, rep)` (non-empty `pat`, as in the source;
for `pat = []` this is the identity, a case the source never exercises). -/
def pyReplace (pat rep l : List Char) : List Char :=
  pyReplaceAux pat rep l.length l

/-- The list of disallowed keywords of `DatabaseManager.validate_sql`
(`utils/db.py`), in the source's order. -/
def dangerous_keywords : List String :=
  ["drop", "delete", "insert", "update",
   "alter", "create", "truncate", "exec",
   "execute", "grant", "revoke"]

/-- `DatabaseManager.validate_sql` (`utils/db.py` lines 60-82): lower
and strip the query, reject on the first disallowed keyword (in list
order) found as a substring, then reject unless the string starts with
`select`; otherwise allow with an empty reason. -/
def validate_sql (sql_query : String) : Bool × String :=
  let sql_lower : List Char := pyStrip (pyLower sql_query.toList)
  match dangerous_keywords.find? (fun keyword => pyContains keyword.toList sql_lower) with
  | some keyword => (false, "Dangerous SQL keyword detected: " ++ keyword)
  | none =>
    if "select".toList.isPrefixOf sql_lower then (true, "")
    else (false, "Only SELECT queries are allowed")

/-- Index of the first occurrence of `pat` in `s` (used to state what
"the earliest offending keyword" would mean positionally). -/
def firstOccIdx (pat s : List Char) : Option Nat :=
  (List.range (s.length + 1)).find? (fun i => pat.isPrefixOf (s.drop i))

-- Bridge lemmas between the executable Python-string model and the
-- relational vocabulary of Mathlib.

theorem pyContains_substring_iff (pat : List Char) :
    ∀ l : List Char, pyContains pat l = true ↔ pat <:+: l := by
  intro l
  induction l with
  | nil =>
    simp [pyContains, List.isEmpty_iff]
  | cons c rest ih =>
    simp only [pyContains, Bool.or_eq_true, List.isPrefixOf_iff_prefix, ih,
      List.infix_cons_iff]

theorem c1_helper_allowed_iff (q : String) :
    (validate_sql q).1 = true ↔
      ("select".toList.isPrefixOf (pyStrip (pyLower q.toList)) = true ∧
        ∀ k ∈ dangerous_keywords, ¬ (k.toList <:+: pyStrip (pyLower q.toList))) := by
  have hiff : ∀ k : String,
      pyContains k.toList (pyStrip (pyLower q.toList)) = true ↔
        k.toList <:+: pyStrip (pyLower q.toList) :=
    fun k => pyContains_substring_iff _ _
  unfold validate_sql
  cases hf : dangerous_keywords.find?
      (fun keyword => pyContains keyword.toList (pyStrip (pyLower q.toList))) with
  | some k =>
    have hk : pyContains k.toList (pyStrip (pyLower q.toList)) = true :=
      List.find?_some
        (p := fun (keyword : String) =>
          pyContains keyword.toList (pyStrip (pyLower q.toList))) hf
    have hmem : k ∈ dangerous_keywords := List.mem_of_find?_eq_some hf
    simp only [hf]
    constructor
    · intro h
      simp at h
    · intro h
      exact absurd ((hiff k).mp hk) (h.2 k hmem)
  | none =>
    have hnone := List.find?_eq_none.mp hf
    simp only [hf]
    by_cases hp : "select".toList.isPrefixOf (pyStrip (pyLower q.toList)) = true
    · rw [if_pos hp]
      constructor
      · intro _
        exact ⟨hp, fun k hk hinf => hnone k hk ((hiff k).mpr hinf)⟩
      · intro _
        rfl
    · rw [if_neg hp]
      constructor
      · intro h
        simp at h
      · intro h
        exact absurd h.1 hp

/-- C1: the Validator allows a query string q exactly when the
lower-cased, whitespace-trimmed form of q starts with `select` and
contains none of the eleven disallowed keywords as a substring;
otherwise it rejects. -/
theorem c1_validator_allowed_iff (q : String) :
    (validate_sql q).1 = true ↔
      ("select".toList.isPrefixOf (pyStrip (pyLower q.toList)) = true ∧
        ∀ k ∈ dangerous_keywords, ¬ (k.toList <:+: pyStrip (pyLower q.toList))) :=
  c1_helper_allowed_iff q

/-- C5 counterexample: the query from the claim, which merely mentions a
column literally named created_at, is rejected by the code, because
`create` occurs inside `created_at` and the keyword scan is a
whole-string substring check. -/
theorem c5_counterexample :
    validate_sql "select created_at from assessments" =
      (false, "Dangerous SQL keyword detected: create") := by
  decide

/-- C5 amended: a query whose lower-cased trimmed form contains `create`
as a substring, which includes any query mentioning a column literally
named created_at, is rejected by the Validator; the substring scan does
not exempt identifiers that merely embed a disallowed keyword. -/
theorem c5_created_at_rejected (q : String)
    (h : pyContains "create".toList (pyStrip (pyLower q.toList)) = true) :
    (validate_sql q).1 = false := by
  cases hb : (validate_sql q).1 with
  | false => rfl
  | true =>
    have hall := (c1_helper_allowed_iff q).mp hb
    have hmem : "create" ∈ dangerous_keywords := by decide
    exact absurd ((pyContains_substring_iff _ _).mp h) (hall.2 "create" hmem)

/-- C5 witness: the amended theorem applied to the claim's own example
query. -/
theorem c5_created_at_rejected_witness :
    pyContains "create".toList
        (pyStrip (pyLower "select created_at from assessments".toList)) = true ∧
      (validate_sql "select created_at from assessments").1 = false :=
  ⟨by decide, c5_created_at_rejected "select created_at from assessments" (by decide)⟩

/-- C6 counterexample: for the query `delete drop` the code reports
`drop` (the first offender in the fixed keyword-list order), yet
`delete` is the earliest disallowed keyword occurring in the string
(position 0 versus position 7), so the reason does not name the earliest
keyword occurring in the string. -/
theorem c6_counterexample :
    validate_sql "delete drop" = (false, "Dangerous SQL keyword detected: drop") ∧
      "delete" ∈ dangerous_keywords ∧
      firstOccIdx "delete".toList (pyStrip (pyLower "delete drop".toList)) = some 0 ∧
      firstOccIdx "drop".toList (pyStrip (pyLower "delete drop".toList)) = some 7 := by
  refine ⟨by decide, by decide, by decide, by decide⟩

/-- C6 amended: a rejection reason names the first offending keyword in
the fixed order of the policy list (drop, delete, insert, update, alter,
create, truncate, exec, execute, grant, revoke), not the earliest
occurrence position in the string; when no disallowed keyword is present
the missing-SELECT reason is returned; an allowed verdict carries an
empty reason. -/
theorem c6_reason_first_in_list_order (q : String) :
    (∀ k, dangerous_keywords.find?
        (fun keyword => pyContains keyword.toList (pyStrip (pyLower q.toList))) = some k →
        validate_sql q = (false, "Dangerous SQL keyword detected: " ++ k)) ∧
      (dangerous_keywords.find?
        (fun keyword => pyContains keyword.toList (pyStrip (pyLower q.toList))) = none →
        (¬ "select".toList.isPrefixOf (pyStrip (pyLower q.toList)) = true →
            validate_sql q = (false, "Only SELECT queries are allowed")) ∧
          ("select".toList.isPrefixOf (pyStrip (pyLower q.toList)) = true →
            validate_sql q = (true, ""))) ∧
      ((validate_sql q).1 = true → (validate_sql q).2 = "") := by
  refine ⟨?_, ?_, ?_⟩
  · intro k hk
    unfold validate_sql
    simp only [hk]
  · intro hn
    unfold validate_sql
    simp only [hn]
    constructor
    · intro hp
      rw [if_neg hp]
    · intro hp
      rw [if_pos hp]
  · intro h
    unfold validate_sql at h ⊢
    cases hf : dangerous_keywords.find?
        (fun keyword => pyContains keyword.toList (pyStrip (pyLower q.toList))) with
    | some k =>
      simp only [hf] at h
      simp at h
    | none =>
      simp only [hf] at h ⊢
      by_cases hp : "select".toList.isPrefixOf (pyStrip (pyLower q.toList)) = true
      · rw [if_pos hp]
      · rw [if_neg hp] at h
        simp at h

/-- C6 witness: the amended theorem applied to the concrete rejected
query `drop it` and to the concrete allowed query `select 1`. -/
theorem c6_reason_first_in_list_order_witness :
    validate_sql "drop it" = (false, "Dangerous SQL keyword detected: drop") ∧
      validate_sql "select 1" = (true, "") :=
  ⟨(c6_reason_first_in_list_order "drop it").1 "drop" (by decide),
   ((c6_reason_first_in_list_order "select 1").2.1 (by decide)).2 (by decide)⟩

/-- The backtick character (spelled via its code point). -/
def btick : Char := Char.ofNat 96

/-- The newline character separating a fence from its content. -/
def nlChar : Char := '\n'

/-- The bare code-fence marker, three backticks. -/
def fence3 : List Char := [btick, btick, btick]

/-- The language-tagged code-fence opener of the source, three backticks
followed by sql. -/
def fenceTag : List Char := fence3 ++ ['s', 'q', 'l']

/-- `LLMManager._clean_sql` (`utils/llm.py` lines 125-131): if the raw
output starts with a tagged fence, delete every tagged-fence and every
bare-fence occurrence and strip; else if it starts with a bare fence,
delete every bare-fence occurrence and strip; otherwise return the input
unchanged. -/
def clean_sql (sql_query : String) : String :=
  if fenceTag.isPrefixOf sql_query.toList then
    String.mk (pyStrip (pyReplace fence3 [] (pyReplace fenceTag [] sql_query.toList)))
  else if fence3.isPrefixOf sql_query.toList then
    String.mk (pyStrip (pyReplace fence3 [] sql_query.toList))
  else
    sql_query

/-- Wrapping a SQL text as a fenced code block with a language tag, as a
generative backend would emit it. -/
def wrapTagged (s : String) : String :=
  String.mk (fenceTag ++ nlChar :: (s.toList ++ nlChar :: fence3))

/-- Wrapping a SQL text as a bare fenced code block. -/
def wrapBare (s : String) : String :=
  String.mk (fence3 ++ nlChar :: (s.toList ++ nlChar :: fence3))

-- Fuel irrelevance and unfolding equations for the replace scan.

theorem pyReplaceAux_fuel_congr (pat rep : List Char) :
    ∀ (n : Nat) (l : List Char), l.length ≤ n →
      ∀ f g : Nat, l.length ≤ f → l.length ≤ g →
        pyReplaceAux pat rep f l = pyReplaceAux pat rep g l := by
  intro n
  induction n with
  | zero =>
    intro l hl f g _ _
    have hnil : l = [] := List.eq_nil_of_length_eq_zero (Nat.le_zero.mp hl)
    subst hnil
    cases f <;> cases g <;> rfl
  | succ n ih =>
    intro l hl f g hf hg
    cases l with
    | nil => cases f <;> cases g <;> rfl
    | cons c rest =>
      cases f with
      | zero => simp at hf
      | succ f =>
        cases g with
        | zero => simp at hg
        | succ g =>
          simp only [pyReplaceAux]
          by_cases hc : pat ≠ [] ∧ pat.isPrefixOf (c :: rest) = true
          · rw [if_pos hc, if_pos hc]
            have hlen : ((c :: rest).drop pat.length).length ≤ n := by
              have hp : 1 ≤ pat.length := by
                cases hpat : pat with
                | nil => exact absurd hpat hc.1
                | cons p ps => simp
              simp only [List.length_drop, List.length_cons]
              simp only [List.length_cons] at hl
              omega
            have h1 : ((c :: rest).drop pat.length).length ≤ f := by
              have hp : 1 ≤ pat.length := by
                cases hpat : pat with
                | nil => exact absurd hpat hc.1
                | cons p ps => simp
              simp only [List.length_drop, List.length_cons]
              simp only [List.length_cons] at hf
              omega
            have h2 : ((c :: rest).drop pat.length).length ≤ g := by
              have hp : 1 ≤ pat.length := by
                cases hpat : pat with
                | nil => exact absurd hpat hc.1
                | cons p ps => simp
              simp only [List.length_drop, List.length_cons]
              simp only [List.length_cons] at hg
              omega
            rw [ih _ hlen f g h1 h2]
          · rw [if_neg hc, if_neg hc]
            have hr : rest.length ≤ n := by
              simp only [List.length_cons] at hl
              omega
            have h1 : rest.length ≤ f := by
              simp only [List.length_cons] at hf
              omega
            have h2 : rest.length ≤ g := by
              simp only [List.length_cons] at hg
              omega
            rw [ih rest hr f g h1 h2]

theorem pyReplace_cons_neg {pat : List Char} (rep : List Char) {c : Char} {rest : List Char}
    (h : ¬ (pat ≠ [] ∧ pat.isPrefixOf (c :: rest) = true)) :
    pyReplace pat rep (c :: rest) = c :: pyReplace pat rep rest := by
  unfold pyReplace
  simp only [List.length_cons, pyReplaceAux]
  rw [if_neg h]

theorem pyReplace_head {pat : List Char} (rep t : List Char) (hne : pat ≠ []) :
    pyReplace pat rep (pat ++ t) = rep ++ pyReplace pat rep t := by
  obtain ⟨p, ps, rfl⟩ : ∃ p ps, pat = p :: ps := by
    cases pat with
    | nil => exact absurd rfl hne
    | cons p ps => exact ⟨p, ps, rfl⟩
  have hpre : (p :: ps).isPrefixOf ((p :: ps) ++ t) = true :=
    List.isPrefixOf_iff_prefix.mpr (List.prefix_append _ _)
  unfold pyReplace
  rw [List.cons_append]
  simp only [List.length_cons, pyReplaceAux]
  rw [if_pos ⟨hne, by rw [← List.cons_append]; exact hpre⟩]
  have hdrop : List.drop (ps.length + 1) (p :: (ps ++ t)) = t := by
    rw [← List.cons_append]
    exact List.drop_left (p :: ps) t
  rw [hdrop]
  have hfuel : t.length ≤ (ps ++ t).length := by
    simp [List.length_append]
  rw [pyReplaceAux_fuel_congr (p :: ps) rep (ps ++ t).length t hfuel _ _ hfuel (Nat.le_refl _)]

theorem pyReplace_id {pat : List Char} (rep : List Char) :
    ∀ l : List Char, (∀ l', l' <:+ l → ¬ pat <+: l') → pyReplace pat rep l = l := by
  intro l
  induction l with
  | nil => intro _; rfl
  | cons c rest ih =>
    intro h
    have hc : ¬ (pat ≠ [] ∧ pat.isPrefixOf (c :: rest) = true) := by
      rintro ⟨-, hp⟩
      exact h (c :: rest) (List.suffix_refl _) (List.isPrefixOf_iff_prefix.mp hp)
    rw [pyReplace_cons_neg rep hc,
      ih (fun l' hl' => h l' (hl'.trans (List.suffix_cons c rest)))]

theorem pyReplace_append {pat : List Char} (rep b : List Char) :
    ∀ a : List Char, (∀ a', a' <:+ a → a' ≠ [] → ¬ pat <+: (a' ++ b)) →
      pyReplace pat rep (a ++ b) = a ++ pyReplace pat rep b := by
  intro a
  induction a with
  | nil => intro _; rfl
  | cons c a ih =>
    intro h
    have hc : ¬ (pat ≠ [] ∧ pat.isPrefixOf (c :: (a ++ b)) = true) := by
      rintro ⟨-, hp⟩
      refine h (c :: a) (List.suffix_refl _) (List.cons_ne_nil c a) ?_
      rw [List.cons_append]
      exact List.isPrefixOf_iff_prefix.mp hp
    rw [List.cons_append, pyReplace_cons_neg rep hc,
      ih (fun a' ha' hne => h a' (ha'.trans (List.suffix_cons c a)) hne), List.cons_append]

-- Occurrence analysis: where a fence marker can sit inside a wrapped
-- output whose inner SQL text contains no fence marker.

theorem fence3_not_prefix_cons_nl (t : List Char) : ¬ fence3 <+: (nlChar :: t) := by
  rintro ⟨u, hu⟩
  simp only [fence3, List.cons_append, List.nil_append] at hu
  injection hu with h1 _
  exact absurd h1 (by decide)

theorem fence3_prefix_of_fenceTag {l : List Char} (h : fenceTag <+: l) : fence3 <+: l := by
  have h0 : fence3 <+: fenceTag := ⟨['s', 'q', 'l'], rfl⟩
  exact h0.trans h

theorem fenceTag_not_prefix_cons_nl (t : List Char) : ¬ fenceTag <+: (nlChar :: t) :=
  fun h => fence3_not_prefix_cons_nl t (fence3_prefix_of_fenceTag h)

theorem suffix_append_cases {l' a b : List Char} (h : l' <:+ a ++ b) :
    l' <:+ b ∨ ∃ a', a' <:+ a ∧ a' ≠ [] ∧ l' = a' ++ b := by
  induction a with
  | nil => exact Or.inl h
  | cons c a ih =>
    rw [List.cons_append] at h
    rcases List.suffix_cons_iff.mp h with h1 | h2
    · refine Or.inr ⟨c :: a, List.suffix_refl _, List.cons_ne_nil c a, ?_⟩
      rw [h1, List.cons_append]
    · rcases ih h2 with h3 | ⟨a', ha, hne, he⟩
      · exact Or.inl h3
      · exact Or.inr ⟨a', ha.trans (List.suffix_cons c a), hne, he⟩

theorem fence3_not_prefix_span {m : List Char} (hm : ¬ fence3 <:+: m) :
    ∀ a' t : List Char, a' <:+ m → a' ≠ [] → ¬ fence3 <+: (a' ++ nlChar :: t) := by
  intro a' t ha hne hp
  cases a' with
  | nil => exact hne rfl
  | cons x r =>
    cases r with
    | nil =>
      rcases hp with ⟨u, hu⟩
      simp only [fence3, List.cons_append, List.nil_append] at hu
      injection hu with _ h2
      injection h2 with h3 _
      exact absurd h3 (by decide)
    | cons y r2 =>
      cases r2 with
      | nil =>
        rcases hp with ⟨u, hu⟩
        simp only [fence3, List.cons_append, List.nil_append] at hu
        injection hu with _ h2
        injection h2 with _ h4
        injection h4 with h5 _
        exact absurd h5 (by decide)
      | cons z w =>
        rcases hp with ⟨u, hu⟩
        simp only [fence3, List.cons_append, List.nil_append] at hu
        injection hu with h1 h2
        injection h2 with h3 h4
        injection h4 with h5 _
        have hpre : fence3 <+: (x :: y :: z :: w) := by
          refine ⟨w, ?_⟩
          simp only [fence3, List.cons_append, List.nil_append]
          rw [← h1, ← h3, ← h5]
        exact hm (List.infix_iff_prefix_suffix.mpr ⟨x :: y :: z :: w, hpre, ha⟩)

theorem no_fenceTag_in_rest {s : List Char} (hm : ¬ fence3 <:+: s) :
    ∀ l', l' <:+ (nlChar :: (s ++ nlChar :: fence3)) → ¬ fenceTag <+: l' := by
  intro l' hl hp
  rcases List.suffix_cons_iff.mp hl with h1 | h2
  · rw [h1] at hp
    exact fenceTag_not_prefix_cons_nl _ hp
  · rcases suffix_append_cases h2 with h3 | ⟨a', ha, hne, he⟩
    · have hlen : l'.length ≤ 4 := by
        have hle := h3.length_le
        simpa [fence3] using hle
      have hge := hp.length_le
      simp only [fenceTag, fence3] at hge
      simp at hge
      omega
    · rw [he] at hp
      exact fence3_not_prefix_span hm a' fence3 ha hne (fence3_prefix_of_fenceTag hp)

theorem replace_fenceTag_rest {s : List Char} (hm : ¬ fence3 <:+: s) :
    pyReplace fenceTag [] (fenceTag ++ (nlChar :: (s ++ nlChar :: fence3))) =
      nlChar :: (s ++ nlChar :: fence3) := by
  rw [pyReplace_head [] _ (by decide), List.nil_append,
    pyReplace_id [] _ (no_fenceTag_in_rest hm)]

theorem replace_fence3_rest {s : List Char} (hm : ¬ fence3 <:+: s) :
    pyReplace fence3 [] (nlChar :: (s ++ nlChar :: fence3)) = nlChar :: (s ++ [nlChar]) := by
  have hshape : nlChar :: (s ++ nlChar :: fence3) = (nlChar :: (s ++ [nlChar])) ++ fence3 := by
    simp
  rw [hshape]
  have hside : ∀ a', a' <:+ (nlChar :: (s ++ [nlChar])) → a' ≠ [] →
      ¬ fence3 <+: (a' ++ fence3) := by
    intro a' ha hne hp
    rcases List.suffix_cons_iff.mp ha with h1 | h2
    · rw [h1, List.cons_append] at hp
      exact fence3_not_prefix_cons_nl _ hp
    · rcases suffix_append_cases h2 with h3 | ⟨a'', ha'', hne'', he⟩
      · rcases List.suffix_cons_iff.mp h3 with h4 | h5
        · rw [h4, List.cons_append, List.nil_append] at hp
          exact fence3_not_prefix_cons_nl _ hp
        · exact hne (List.suffix_nil.mp h5)
      · refine fence3_not_prefix_span hm a'' fence3 ha'' hne'' ?_
        rw [he, List.append_assoc] at hp
        simpa using hp
  rw [pyReplace_append [] fence3 _ hside]
  have hrecur : pyReplace fence3 [] fence3 = [] := by decide
  rw [hrecur, List.append_nil]

-- Python strip behaviour on the newline padding of a fenced block.

theorem stripLeft_cons_space {c : Char} (h : isPySpace c = true) (l : List Char) :
    stripLeft (c :: l) = stripLeft l := by
  simp [stripLeft, List.dropWhile_cons, h]

theorem stripRight_append_space {c : Char} (h : isPySpace c = true) (l : List Char) :
    stripRight (l ++ [c]) = stripRight l := by
  simp [stripRight, List.reverse_append, List.dropWhile_cons, h]

theorem pyStrip_wrap (s : List Char) :
    pyStrip (nlChar :: (s ++ [nlChar])) = pyStrip s := by
  unfold pyStrip
  rw [stripLeft_cons_space (by decide)]
  unfold stripLeft
  rw [List.dropWhile_append]
  by_cases he : (List.dropWhile isPySpace s).isEmpty = true
  · rw [if_pos he]
    have h1 : List.dropWhile isPySpace [nlChar] = [] := by decide
    have h2 : List.dropWhile isPySpace s = [] := List.isEmpty_iff.mp he
    rw [h1, h2]
  · rw [if_neg he]
    exact stripRight_append_space (by decide) _

/-- C7 counterexample: for the inner SQL text a```sqlb, which itself
contains fence markup, the two wrappings do not normalize to the same
text, and neither yields the inner text back: the whole-string replace
also deletes the inner occurrences. -/
theorem c7_counterexample :
    clean_sql (wrapTagged "a```sqlb") = "ab" ∧
      clean_sql (wrapBare "a```sqlb") = "asqlb" ∧
      clean_sql (wrapTagged "a```sqlb") ≠ clean_sql (wrapBare "a```sqlb") ∧
      clean_sql (wrapTagged "a```sqlb") ≠ pyStripStr "a```sqlb" := by
  refine ⟨by decide, by decide, by decide, by decide⟩

/-- C7 amended: for every SQL text s in which the fence marker (three
backticks) does not occur, wrapping s as a fenced block with the sql
language tag or as a bare fenced block and applying the Translator's
post-processing yields, in both cases, the inner text s with surrounding
whitespace removed. -/
theorem c7_fence_strip (s : String) (h : ¬ fence3 <:+: s.toList) :
    clean_sql (wrapTagged s) = pyStripStr s ∧
      clean_sql (wrapBare s) = pyStripStr s := by
  constructor
  · unfold clean_sql wrapTagged
    have htl : (String.mk (fenceTag ++ nlChar :: (s.toList ++ nlChar :: fence3))).toList
        = fenceTag ++ nlChar :: (s.toList ++ nlChar :: fence3) := rfl
    rw [htl]
    have hpre : fenceTag.isPrefixOf
        (fenceTag ++ nlChar :: (s.toList ++ nlChar :: fence3)) = true :=
      List.isPrefixOf_iff_prefix.mpr (List.prefix_append _ _)
    rw [if_pos hpre, replace_fenceTag_rest h, replace_fence3_rest h, pyStrip_wrap]
    rfl
  · unfold clean_sql wrapBare
    have htl : (String.mk (fence3 ++ nlChar :: (s.toList ++ nlChar :: fence3))).toList
        = fence3 ++ nlChar :: (s.toList ++ nlChar :: fence3) := rfl
    rw [htl]
    have hnp : ¬ fenceTag.isPrefixOf
        (fence3 ++ nlChar :: (s.toList ++ nlChar :: fence3)) = true := by
      intro hb
      rcases List.isPrefixOf_iff_prefix.mp hb with ⟨u, hu⟩
      rw [fenceTag, List.append_assoc] at hu
      have hcancel := List.append_cancel_left hu
      simp only [List.cons_append, List.nil_append] at hcancel
      injection hcancel with h1 _
      exact absurd h1 (by decide)
    have hpre : fence3.isPrefixOf
        (fence3 ++ nlChar :: (s.toList ++ nlChar :: fence3)) = true :=
      List.isPrefixOf_iff_prefix.mpr (List.prefix_append _ _)
    rw [if_neg hnp, if_pos hpre, pyReplace_head [] _ (by decide), List.nil_append,
      replace_fence3_rest h, pyStrip_wrap]
    rfl

/-- C7 witness: the amended theorem applied to the fence-free SQL text
used by the spec's round-trip example. -/
theorem c7_fence_strip_witness :
    (¬ fence3 <:+: "select avg(qol_score) from patients".toList) ∧
      clean_sql (wrapTagged "select avg(qol_score) from patients") =
        pyStripStr "select avg(qol_score) from patients" ∧
      clean_sql (wrapBare "select avg(qol_score) from patients") =
        pyStripStr "select avg(qol_score) from patients" := by
  have hni : ¬ fence3 <:+: "select avg(qol_score) from patients".toList := by decide
  have hc := c7_fence_strip "select avg(qol_score) from patients" hni
  exact ⟨hni, hc.1, hc.2⟩

/-- C10: the Translator's fence-stripping post-processor returns its
input unchanged whenever the raw output does not begin with the fence
marker; a fence preceded by leading whitespace or prose is left in
place. -/
theorem c10_clean_sql_untouched (q : String)
    (h : fence3.isPrefixOf q.toList = false) :
    clean_sql q = q := by
  have h3 : ¬ fence3.isPrefixOf q.toList = true := by
    rw [h]
    exact Bool.false_ne_true
  have h6 : ¬ fenceTag.isPrefixOf q.toList = true := by
    intro hb
    exact h3 (List.isPrefixOf_iff_prefix.mpr
      (fence3_prefix_of_fenceTag (List.isPrefixOf_iff_prefix.mp hb)))
  unfold clean_sql
  rw [if_neg h6, if_neg h3]

/-- C10 witness: a fence preceded by a single leading space is left in
place. -/
theorem c10_clean_sql_untouched_witness :
    fence3.isPrefixOf " ```select 1".toList = false ∧
      clean_sql " ```select 1" = " ```select 1" :=
  ⟨by decide, c10_clean_sql_untouched " ```select 1" (by decide)⟩

/-- A single-quote character as a string (spelled via its code point, it
quotes strings in the Python repr of sample rows). -/
def squote : String := String.singleton (Char.ofNat 39)

/-- A scalar cell value of a loaded table. -/
inductive Value where
  | str (s : String)
  | int (n : Int)
deriving DecidableEq

/-- Python repr of a scalar cell value. -/
def Value.pyRepr : Value → String
  | Value.str s => squote ++ s ++ squote
  | Value.int n => toString n

/-- A pandas DataFrame as the source uses it: ordered columns, the
dtype name pandas inferred per column, and the rows. -/
structure DataFrame where
  columns : List String
  dtypes : List (String × String)
  rows : List (List Value)
deriving DecidableEq

/-- The sqlite side of the store: the tables held by the in-memory
engine, keyed by name. -/
def Database := List (String × DataFrame)

instance : DecidableEq Database := by
  unfold Database
  infer_instance

/-- `df.to_sql(name, conn, if_exists="replace")`: drop any table of
that name held by the engine and store the frame under the name. -/
def to_sql (table_name : String) (df : DataFrame) (db : Database) : Database :=
  db.filter (fun p => !(p.1 == table_name)) ++ [(table_name, df)]

/-- The per-table schema record built by `load_csvs_to_db`: columns,
dtypes, row count and the first three rows as column-to-value records. -/
structure TableInfo where
  columns : List String
  dtypes : List (String × String)
  row_count : Nat
  sample : List (List (String × Value))
deriving DecidableEq

/-- Python dict assignment `d[k] = v`: overwrite in place when the key
exists (keeping its position), else append. -/
def dictInsert {α : Type} (k : String) (v : α) (d : List (String × α)) : List (String × α) :=
  if d.any (fun p => p.1 == k) then
    d.map (fun p => if p.1 == k then (k, v) else p)
  else d ++ [(k, v)]

/-- The state of a `DatabaseManager` instance (`utils/db.py`): the data
folder, the stored frames, the schema info, and the engine connection. -/
structure DbState where
  data_folder : String
  tables : List (String × DataFrame)
  schema_info : List (String × TableInfo)
  conn : Database
deriving DecidableEq

/-- The schema-info entry built for one loaded frame
(`load_csvs_to_db`, `utils/db.py` lines 34-40). -/
def mkTableInfo (df : DataFrame) : TableInfo :=
  { columns := df.columns
    dtypes := df.dtypes
    row_count := df.rows.length
    sample := (df.rows.take 3).map (fun r => df.columns.zip r) }

/-- One iteration of the loading loop of `load_csvs_to_db`
(`utils/db.py` lines 24-40): store the frame, load it into the engine,
record its schema info. -/
def load_one (table_name : String) (df : DataFrame) (st : DbState) : DbState :=
  { st with
    tables := dictInsert table_name df st.tables
    conn := to_sql table_name df st.conn
    schema_info := dictInsert table_name (mkTableInfo df) st.schema_info }

/-- `DatabaseManager.load_csvs_to_db` (`utils/db.py` lines 20-42) over
the globbed sources, each paired with the outcome `pd.read_csv` would
produce for it.  The loop body has no exception handler, so a parse
error propagates immediately: the state mutated so far is kept and the
remaining sources are not visited. -/
def load_csvs_to_db :
    List (String × Except String DataFrame) → DbState → DbState × Option String
  | [], st => (st, none)
  | (_, Except.error e) :: _, st => (st, some e)
  | (table_name, Except.ok df) :: rest, st =>
    load_csvs_to_db rest (load_one table_name df st)

/-- `DatabaseManager.execute_query` (`utils/db.py` lines 52-58): hand
the raw query string to the engine call `pd.read_sql_query(sql_query,
self.conn)` and re-wrap any engine error.  The engine call runs on the
live read-write in-memory sqlite connection, so the oracle returns both
its outcome and the connection state it leaves behind: for a mutation
statement sqlite executes it before pandas fails to fetch rows, with no
rollback, so even the error path can leave the engine contents changed.
The method itself assigns no attribute of the manager; only the
connection component can differ afterwards. -/
def execute_query (ee : String → Database → Except String DataFrame × Database)
    (st : DbState) (sql_query : String) : Except String DataFrame × DbState :=
  match ee sql_query st.conn with
  | (Except.ok result, conn2) => (Except.ok result, { st with conn := conn2 })
  | (Except.error e, conn2) =>
    (Except.error ("Query execution error: " ++ e), { st with conn := conn2 })

/-- Python repr of one sample row (a dict from column name to value). -/
def rowRepr (row : List (String × Value)) : String :=
  "\x7b" ++ String.intercalate ", "
    (row.map (fun p => squote ++ p.1 ++ squote ++ ": " ++ p.2.pyRepr)) ++ "\x7d"

/-- The per-table block of `get_schema_description` (`utils/db.py`
lines 88-103). -/
def describe_table (table_name : String) (info : TableInfo) : String :=
  "Table: " ++ table_name ++ "\n" ++
  "Columns: " ++ String.intercalate ", " info.columns ++ "\n" ++
  "Row count: " ++ toString info.row_count ++ "\n" ++
  "Data types:\n" ++
  String.join (info.dtypes.map (fun p => "  - " ++ p.1 ++ ": " ++ p.2 ++ "\n")) ++
  "Sample data (first 3 rows):\n" ++
  String.join (info.sample.enum.map
    (fun p => "  Row " ++ toString (p.1 + 1) ++ ": " ++ rowRepr p.2 ++ "\n")) ++
  "\n"

/-- `DatabaseManager.get_schema_description` (`utils/db.py` lines
84-105): renders the schema info in insertion order; the method assigns
no attribute of the manager, which the explicit state component records. -/
def get_schema_description (st : DbState) : String × DbState :=
  ("Available tables and their schemas:\n\n" ++
    String.join (st.schema_info.map (fun p => describe_table p.1 p.2)), st)

-- Demonstration data reused by several concrete witnesses.

def dfA : DataFrame :=
  ⟨["id", "qol_score"], [("id", "object"), ("qol_score", "int64")],
    [[Value.str "P001", Value.int 72]]⟩

def dfC : DataFrame :=
  ⟨["x"], [("x", "int64")], [[Value.int 2]]⟩

def emptyDbState : DbState := ⟨"data", [], [], []⟩

def demoSources : List (String × Except String DataFrame) :=
  [("a", Except.ok dfA),
   ("bad", Except.error "ParserError: malformed CSV"),
   ("c", Except.ok dfC)]

def demoEE : String → Database → Except String DataFrame × Database :=
  fun _ db => (Except.ok dfA, db)

/-- A store state whose engine holds one assessments table, used to
exhibit the engine-mutation path of an unvalidated statement. -/
def demoMutState : DbState := ⟨"data", [], [], [("assessments", dfA)]⟩

/-- An engine oracle behaving as `pd.read_sql_query` on the shared
sqlite connection does at the unvalidated statement `delete from
assessments`: sqlite executes the DELETE, emptying the table's rows,
then pandas fails to fetch a result set and raises, with no rollback;
every other query is served as a pure read. -/
def demoMutEngine : String → Database → Except String DataFrame × Database :=
  fun q db =>
    if q = "delete from assessments" then
      (Except.error "no results to fetch",
        db.map (fun p =>
          if p.1 == "assessments" then (p.1, ⟨p.2.columns, p.2.dtypes, []⟩) else p))
    else (Except.ok dfA, db)

/-- C3 counterexample: at the unvalidated mutation statement `delete
from assessments` the engine executes the DELETE before the read fails,
so the engine contents after `execute_query` differ from the contents
before: the claimed invariance for every query string, validated or
not, fails on the error path of an unvalidated statement. -/
theorem c3_counterexample :
    (execute_query demoMutEngine demoMutState "delete from assessments").2.conn ≠
        demoMutState.conn ∧
      (execute_query demoMutEngine demoMutState "delete from assessments").2 ≠
        demoMutState ∧
      (execute_query demoMutEngine demoMutState "delete from assessments").2.conn =
        [("assessments", ⟨dfA.columns, dfA.dtypes, []⟩)] := by
  refine ⟨by decide, by decide, by decide⟩

/-- C3 amended: `execute_query` never changes the manager's own fields
- data folder, loaded tables, schema info - on the success path or the
error path; the connection afterwards is exactly whatever the engine
call left behind, and whenever the engine call leaves the connection
unchanged, as the read of a validated SELECT does, the whole store
state is unchanged.  An unvalidated mutation statement can change the
engine contents through the engine call before its error surfaces. -/
theorem c3_execute_query_frame (ee : String → Database → Except String DataFrame × Database)
    (st : DbState) (q : String) :
    ((execute_query ee st q).2.data_folder = st.data_folder ∧
      (execute_query ee st q).2.tables = st.tables ∧
      (execute_query ee st q).2.schema_info = st.schema_info ∧
      (execute_query ee st q).2.conn = (ee q st.conn).2) ∧
    ((ee q st.conn).2 = st.conn → (execute_query ee st q).2 = st) := by
  unfold execute_query
  rcases hx : ee q st.conn with ⟨r, conn2⟩
  cases r with
  | ok result =>
    refine ⟨⟨rfl, rfl, rfl, rfl⟩, fun hc => ?_⟩
    have hc2 : conn2 = st.conn := hc
    rw [hc2]
  | error e =>
    refine ⟨⟨rfl, rfl, rfl, rfl⟩, fun hc => ?_⟩
    have hc2 : conn2 = st.conn := hc
    rw [hc2]

/-- C3 witness: at a read-only engine call the whole state, engine
included, is unchanged at a concrete loaded state. -/
theorem c3_execute_query_frame_witness :
    (demoEE "select qol_score from patients" demoMutState.conn).2 = demoMutState.conn ∧
      (execute_query demoEE demoMutState "select qol_score from patients").2 =
        demoMutState :=
  ⟨rfl, (c3_execute_query_frame demoEE demoMutState "select qol_score from patients").2 rfl⟩

/-- C4 counterexample: with three sources of which the middle one is
malformed, the load stops at the malformed source: the earlier table a
is loaded, but the later well-formed table c is missing from the
resulting store, so the partially loaded store does not contain a table
for every well-formed source. -/
theorem c4_counterexample :
    ((load_csvs_to_db demoSources emptyDbState).1.tables.any (fun p => p.1 == "a")) = true ∧
      ((load_csvs_to_db demoSources emptyDbState).1.tables.any (fun p => p.1 == "c")) = false ∧
      (load_csvs_to_db demoSources emptyDbState).2 = some "ParserError: malformed CSV" := by
  refine ⟨by decide, by decide, by decide⟩

/-- C4 amended: a malformed source aborts the load at that point: every
well-formed source strictly before the first malformed one is ingested,
in order, and remains in the (partially loaded) store, while the
malformed source and everything after it are not processed; the load
reports the first parse error. -/
theorem c4_load_aborts_at_first_error (good : List (String × DataFrame))
    (bname e : String) (rest : List (String × Except String DataFrame)) (st : DbState) :
    load_csvs_to_db
        (good.map (fun p => (p.1, Except.ok p.2)) ++ (bname, Except.error e) :: rest) st =
      (good.foldl (fun s p => load_one p.1 p.2 s) st, some e) := by
  induction good generalizing st with
  | nil => rfl
  | cons g gs ih =>
    simp only [List.map_cons, List.cons_append, load_csvs_to_db, List.foldl_cons]
    exact ih (load_one g.1 g.2 st)

/-- C8: the schema description depends only on the schema-info
component of the state, the call does not change the state, and a second
call on the returned state yields byte-identical text. -/
theorem c8_schema_description_pure (st st2 : DbState)
    (h : st.schema_info = st2.schema_info) :
    (get_schema_description st).1 = (get_schema_description st2).1 ∧
      (get_schema_description st).2 = st ∧
      (get_schema_description ((get_schema_description st).2)).1 =
        (get_schema_description st).1 := by
  unfold get_schema_description
  exact ⟨by rw [h], rfl, rfl⟩

def demoLoaded : DbState := load_one "patients" dfA emptyDbState

def demoLoaded2 : DbState := { demoLoaded with data_folder := "other" }

/-- C8 witness: two states sharing the schema info of a loaded table
render the same description, and the call leaves the state unchanged. -/
theorem c8_schema_description_pure_witness :
    demoLoaded.schema_info = demoLoaded2.schema_info ∧
      (get_schema_description demoLoaded).1 = (get_schema_description demoLoaded2).1 ∧
      (get_schema_description demoLoaded).2 = demoLoaded :=
  ⟨rfl, (c8_schema_description_pure demoLoaded demoLoaded2 rfl).1,
    (c8_schema_description_pure demoLoaded demoLoaded2 rfl).2.1⟩

/-- The generative-text backend capabilities an `LLMManager` instance
holds: one call per purpose, each taking the system and user prompts
and either returning text or raising. -/
structure LLMOracle where
  sqlBackend : String → String → Except String String
  explBackend : String → String → Except String String
  answerBackend : String → String → Except String String

/-- The system prompt of `LLMManager.text_to_sql` (`utils/llm.py` lines
59-74). -/
def sql_system_prompt (schema_description : String) : String :=
  "You are a medical data SQL expert helping physicians query patient databases.\n\nDatabase Schema:\n" ++
  schema_description ++
  "\n\nImportant Context:\n- This is medical/patient data for physicians\n- Tables contain: assessments (QoL, Anxiety, Depression, Behavioral scores), medications (Med A-E dosages), seizures (daily_total, daily_severe counts)\n- Always use proper SQL syntax for SQLite\n- Only generate SELECT queries\n- Be precise with column names\n- Use appropriate aggregations and filters\n- When asked about trends, use date ordering\n- When asked about averages or statistics, use aggregate functions\n\nReturn ONLY valid SQL query, no explanations in the SQL itself."

/-- The user prompt of `LLMManager.text_to_sql` (`utils/llm.py` lines
76-79). -/
def sql_user_prompt (natural_language_query : String) : String :=
  "Convert this natural language query to SQL:\n\"" ++ natural_language_query ++
  "\"\n\nGenerate a clean SQL query that answers this question."

/-- The system prompt of `LLMManager._generate_explanation`
(`utils/llm.py` lines 135-136). -/
def expl_system_prompt : String :=
  "You are a helpful medical data assistant. \nExplain SQL queries in simple terms that physicians can understand."

/-- The user prompt of `LLMManager._generate_explanation`
(`utils/llm.py` lines 138-142). -/
def expl_user_prompt (question sql_query : String) : String :=
  "The user asked: \"" ++ question ++ "\"\nThe generated SQL query is:\n" ++ sql_query ++
  "\n\nProvide a brief, clear explanation (2-3 sentences) of what this query does."

/-- `LLMManager._generate_explanation` (`utils/llm.py` lines 133-170):
call the backend, strip the reply; on any backend error return the
placeholder explanation instead of raising. -/
def generate_explanation (llm : LLMOracle) (question sql_query : String) : String :=
  match llm.explBackend expl_system_prompt (expl_user_prompt question sql_query) with
  | Except.ok explanation => pyStripStr explanation
  | Except.error _ => "Query explanation unavailable."

/-- `LLMManager.text_to_sql` (`utils/llm.py` lines 54-96): generate the
raw SQL (each provider wrapper strips its reply), clean the fence
markup, then produce the best-effort explanation; a backend failure is
re-raised wrapped as an LLM error. -/
def text_to_sql (llm : LLMOracle) (natural_language_query schema_description : String) :
    Except String (String × String) :=
  match llm.sqlBackend (sql_system_prompt schema_description)
      (sql_user_prompt natural_language_query) with
  | Except.error e => Except.error ("LLM error: " ++ e)
  | Except.ok raw =>
    let sql_query := clean_sql (pyStripStr raw)
    Except.ok (sql_query, generate_explanation llm natural_language_query sql_query)

/-- The system prompt of `LLMManager.generate_answer` (`utils/llm.py`
lines 174-177). -/
def answer_system_prompt : String :=
  "You are a medical data assistant helping physicians understand patient data.\nProvide clear, concise answers based on the query results.\nUse medical terminology appropriately.\nKeep responses professional and focused on the data."

/-- The user prompt of `LLMManager.generate_answer` (`utils/llm.py`
lines 179-184). -/
def answer_user_prompt (question query_result : String) : String :=
  "Question: " ++ question ++ "\n\nQuery Results:\n" ++ query_result ++
  "\n\nProvide a clear, professional answer to the physician" ++ squote ++
  "s question based on these results."

/-- `LLMManager.generate_answer` (`utils/llm.py` lines 172-212): call
the backend and strip the reply; on any backend error return the fixed
fallback string instead of raising. -/
def generate_answer (backend : String → String → Except String String)
    (question query_result : String) : String :=
  match backend answer_system_prompt (answer_user_prompt question query_result) with
  | Except.ok answer => pyStripStr answer
  | Except.error _ => "Unable to generate answer summary."

/-- A history entry appended by `process_text_query` (`app.py` lines
277-283). -/
structure QueryRecord where
  query : String
  sql : String
  results : Nat
  answer : String
deriving DecidableEq

/-- The observable calls of one orchestration pass, in order: the
Validator verdict on a candidate query, a Store execution call, the
display of the result set, and the answer-synthesis step. -/
inductive Event where
  | validated (sql : String)
  | executed (sql : String)
  | displayedResults
  | synthesized
deriving DecidableEq

/-- A textual rendering of a result frame, standing in for pandas
`DataFrame.to_string` (external, used only as opaque text). -/
def renderDf (df : DataFrame) : String :=
  String.intercalate "\n"
    (String.intercalate " " df.columns ::
      df.rows.map (fun r => String.intercalate " " (r.map Value.pyRepr)))

/-- The `result_text` expression of `process_text_query` (`app.py` line
271). -/
def resultText (results : DataFrame) : String :=
  if results.rows.isEmpty then "No results found" else renderDf results

/-- `process_text_query` (`app.py` lines 237-289): describe the schema,
translate, validate (returning early with an error display on
rejection), execute (the surrounding handler catching an execution
error), display the results, synthesize the answer, append the history
record.  The returned event list records the Validator, Store and
synthesis calls that actually happened, in order. -/
def process_text_query (ee : String → Database → Except String DataFrame × Database)
    (llm : LLMOracle) (db : DbState) (query : String) (history : List QueryRecord) :
    Option String × List QueryRecord × List Event :=
  match text_to_sql llm query (get_schema_description db).1 with
  | Except.error _ => (none, history, [])
  | Except.ok (sql_query, _explanation) =>
    if (validate_sql sql_query).1 = false then
      (none, history, [Event.validated sql_query])
    else
      match execute_query ee db sql_query with
      | (Except.error _, _) =>
        (none, history, [Event.validated sql_query, Event.executed sql_query])
      | (Except.ok results, _) =>
        let answer := generate_answer llm.answerBackend query (resultText results)
        (some answer,
          history ++ [⟨query, sql_query, results.rows.length, answer⟩],
          [Event.validated sql_query, Event.executed sql_query,
            Event.displayedResults, Event.synthesized])

/-- The Direct SQL branch of `show_query_interface` (`app.py` lines
481-510): validate the user-authored query, returning early on
rejection, else execute and display; no history record and no answer
synthesis on this path. -/
def run_direct_sql (ee : String → Database → Except String DataFrame × Database)
    (db : DbState) (sql_query : String) : Option DataFrame × List Event :=
  if (validate_sql sql_query).1 = false then
    (none, [Event.validated sql_query])
  else
    match execute_query ee db sql_query with
    | (Except.error _, _) => (none, [Event.validated sql_query, Event.executed sql_query])
    | (Except.ok results, _) =>
      (some results,
        [Event.validated sql_query, Event.executed sql_query, Event.displayedResults])

-- Branch characterizations of one orchestration pass, given the
-- translation outcome and the Validator verdict.

theorem process_text_query_rejected (ee : String → Database → Except String DataFrame × Database)
    (llm : LLMOracle) (db : DbState) (q : String) (h : List QueryRecord)
    (sql expl : String)
    (ht : text_to_sql llm q (get_schema_description db).1 = Except.ok (sql, expl))
    (hv : (validate_sql sql).1 = false) :
    process_text_query ee llm db q h = (none, h, [Event.validated sql]) := by
  unfold process_text_query
  split
  · next heq =>
    rw [ht] at heq
    exact Except.noConfusion heq
  · next sql_query _expl heq =>
    rw [ht] at heq
    injection heq with hpair
    injection hpair with h1 h2
    subst h1
    rw [if_pos hv]

theorem process_text_query_exec_error (ee : String → Database → Except String DataFrame × Database)
    (llm : LLMOracle) (db : DbState) (q : String) (h : List QueryRecord)
    (sql expl e : String)
    (ht : text_to_sql llm q (get_schema_description db).1 = Except.ok (sql, expl))
    (hv : ¬ (validate_sql sql).1 = false)
    (hr : (execute_query ee db sql).1 = Except.error e) :
    process_text_query ee llm db q h =
      (none, h, [Event.validated sql, Event.executed sql]) := by
  unfold process_text_query
  split
  · next heq =>
    rw [ht] at heq
    exact Except.noConfusion heq
  · next sql_query _expl heq =>
    rw [ht] at heq
    injection heq with hpair
    injection hpair with h1 h2
    subst h1
    rw [if_neg hv]
    rcases hx : execute_query ee db sql with ⟨r, st2⟩
    rw [hx] at hr
    simp only at hr
    rw [hr]

theorem process_text_query_exec_ok (ee : String → Database → Except String DataFrame × Database)
    (llm : LLMOracle) (db : DbState) (q : String) (h : List QueryRecord)
    (sql expl : String) (df : DataFrame)
    (ht : text_to_sql llm q (get_schema_description db).1 = Except.ok (sql, expl))
    (hv : ¬ (validate_sql sql).1 = false)
    (hr : (execute_query ee db sql).1 = Except.ok df) :
    process_text_query ee llm db q h =
      (some (generate_answer llm.answerBackend q (resultText df)),
        h ++ [⟨q, sql, df.rows.length, generate_answer llm.answerBackend q (resultText df)⟩],
        [Event.validated sql, Event.executed sql,
          Event.displayedResults, Event.synthesized]) := by
  unfold process_text_query
  split
  · next heq =>
    rw [ht] at heq
    exact Except.noConfusion heq
  · next sql_query _expl heq =>
    rw [ht] at heq
    injection heq with hpair
    injection hpair with h1 h2
    subst h1
    rw [if_neg hv]
    rcases hx : execute_query ee db sql with ⟨r, st2⟩
    rw [hx] at hr
    simp only at hr
    rw [hr]

theorem run_direct_sql_rejected (ee : String → Database → Except String DataFrame × Database)
    (db : DbState) (sql : String) (hv : (validate_sql sql).1 = false) :
    run_direct_sql ee db sql = (none, [Event.validated sql]) := by
  unfold run_direct_sql
  rw [if_pos hv]

theorem run_direct_sql_accepted_events (ee : String → Database → Except String DataFrame × Database)
    (db : DbState) (sql : String) (hv : ¬ (validate_sql sql).1 = false) :
    (run_direct_sql ee db sql).2 = [Event.validated sql, Event.executed sql] ∨
      (run_direct_sql ee db sql).2 =
        [Event.validated sql, Event.executed sql, Event.displayedResults] := by
  unfold run_direct_sql
  rw [if_neg hv]
  rcases hx : execute_query ee db sql with ⟨r, st2⟩
  cases r with
  | error e => exact Or.inl rfl
  | ok results => exact Or.inr rfl

/-- C2: given a translated candidate query, a Validator rejection means
the event trace is exactly one Validator call - the Store is never
executed; in every case the Validator is evaluated exactly once and it
is the first observable call, before any execution; and the direct-SQL
path satisfies the same properties for every user-authored query. -/
theorem c2_validator_gate (ee : String → Database → Except String DataFrame × Database)
    (llm : LLMOracle) (db : DbState) (q : String) (h : List QueryRecord)
    (sql expl : String)
    (ht : text_to_sql llm q (get_schema_description db).1 = Except.ok (sql, expl)) :
    (((validate_sql sql).1 = false →
        (process_text_query ee llm db q h).2.2 = [Event.validated sql] ∧
          ∀ s2, Event.executed s2 ∉ (process_text_query ee llm db q h).2.2) ∧
      (process_text_query ee llm db q h).2.2.count (Event.validated sql) = 1 ∧
      (process_text_query ee llm db q h).2.2.head? = some (Event.validated sql)) ∧
    ∀ s : String,
      ((validate_sql s).1 = false →
        (run_direct_sql ee db s).2 = [Event.validated s] ∧
          ∀ s2, Event.executed s2 ∉ (run_direct_sql ee db s).2) ∧
        (run_direct_sql ee db s).2.count (Event.validated s) = 1 ∧
        (run_direct_sql ee db s).2.head? = some (Event.validated s) := by
  constructor
  · by_cases hv : (validate_sql sql).1 = false
    · rw [process_text_query_rejected ee llm db q h sql expl ht hv]
      refine ⟨fun _ => ⟨rfl, fun s2 => by simp⟩, by simp, rfl⟩
    · cases hr : (execute_query ee db sql).1 with
      | error e =>
        rw [process_text_query_exec_error ee llm db q h sql expl e ht hv hr]
        exact ⟨fun hf => absurd hf hv, by simp [List.count_cons], rfl⟩
      | ok results =>
        rw [process_text_query_exec_ok ee llm db q h sql expl results ht hv hr]
        exact ⟨fun hf => absurd hf hv, by simp [List.count_cons], rfl⟩
  · intro s
    by_cases hv : (validate_sql s).1 = false
    · rw [run_direct_sql_rejected ee db s hv]
      refine ⟨fun _ => ⟨rfl, fun s2 => by simp⟩, by simp, rfl⟩
    · rcases run_direct_sql_accepted_events ee db s hv with he | he <;>
        · rw [he]
          exact ⟨fun hf => absurd hf hv, by simp [List.count_cons], rfl⟩

def demoLLMReject : LLMOracle :=
  { sqlBackend := fun _ _ => Except.ok "drop table patients"
    explBackend := fun _ _ => Except.ok "This query deletes data."
    answerBackend := fun _ _ => Except.ok "answer" }

/-- C2 witness: a translator pass whose candidate query is rejected
produces exactly one Validator call and no Store execution. -/
theorem c2_validator_gate_witness :
    text_to_sql demoLLMReject "How many patients are there"
        (get_schema_description emptyDbState).1 =
      Except.ok ("drop table patients", "This query deletes data.") ∧
      (validate_sql "drop table patients").1 = false ∧
      (process_text_query demoEE demoLLMReject emptyDbState
          "How many patients are there" []).2.2 =
        [Event.validated "drop table patients"] := by
  have ht : text_to_sql demoLLMReject "How many patients are there"
      (get_schema_description emptyDbState).1 =
      Except.ok ("drop table patients", "This query deletes data.") := rfl
  refine ⟨ht, by decide, ?_⟩
  exact ((c2_validator_gate demoEE demoLLMReject emptyDbState
    "How many patients are there" [] "drop table patients"
    "This query deletes data." ht).1.1 (by decide)).1

/-- C9: if the answer-synthesis backend raises, `generate_answer`
returns the fixed fallback string instead of propagating, and the
orchestration pass still completes as a success: the result set is
displayed, the pass returns the fallback answer, and a history record
carrying that fallback is appended. -/
theorem c9_answer_fallback (ee : String → Database → Except String DataFrame × Database)
    (llm : LLMOracle) (db : DbState) (q : String) (h : List QueryRecord)
    (sql expl e : String) (df : DataFrame)
    (ht : text_to_sql llm q (get_schema_description db).1 = Except.ok (sql, expl))
    (hv : (validate_sql sql).1 = true)
    (hx : (execute_query ee db sql).1 = Except.ok df)
    (hb : ∀ sys usr, llm.answerBackend sys usr = Except.error e) :
    generate_answer llm.answerBackend q (resultText df) =
        "Unable to generate answer summary." ∧
      (process_text_query ee llm db q h).1 = some "Unable to generate answer summary." ∧
      (process_text_query ee llm db q h).2.1 =
        h ++ [⟨q, sql, df.rows.length, "Unable to generate answer summary."⟩] ∧
      Event.displayedResults ∈ (process_text_query ee llm db q h).2.2 ∧
      Event.synthesized ∈ (process_text_query ee llm db q h).2.2 := by
  have hg : generate_answer llm.answerBackend q (resultText df) =
      "Unable to generate answer summary." := by
    unfold generate_answer
    rw [hb]
  have hnf : ¬ (validate_sql sql).1 = false := by
    rw [hv]
    exact fun hf => absurd hf (by decide)
  rw [process_text_query_exec_ok ee llm db q h sql expl df ht hnf hx, hg]
  exact ⟨rfl, rfl, rfl, by simp, by simp⟩

def demoLLMFallback : LLMOracle :=
  { sqlBackend := fun _ _ => Except.ok "select qol_score from patients"
    explBackend := fun _ _ => Except.ok "Reads the scores."
    answerBackend := fun _ _ => Except.error "backend unavailable" }

/-- C9 witness: with an answer backend that raises, a validated and
executed query still ends the pass with the fallback answer recorded in
the appended history entry. -/
theorem c9_answer_fallback_witness :
    (validate_sql "select qol_score from patients").1 = true ∧
      (process_text_query demoEE demoLLMFallback emptyDbState
          "What are the scores" []).2.1 =
        [⟨"What are the scores", "select qol_score from patients", 1,
          "Unable to generate answer summary."⟩] := by
  have ht : text_to_sql demoLLMFallback "What are the scores"
      (get_schema_description emptyDbState).1 =
      Except.ok ("select qol_score from patients", "Reads the scores.") := rfl
  have hres := c9_answer_fallback demoEE demoLLMFallback emptyDbState
    "What are the scores" [] "select qol_score from patients" "Reads the scores."
    "backend unavailable" dfA ht (by decide) rfl (fun _ _ => rfl)
  refine ⟨by decide, ?_⟩
  simpa using hres.2.2.1
